import Mathlib

/-!
Shallow embedding of `fetch_hubspot_data.py` (a HubSpot reporting batch job)
together with proofs about the claims of its specification.

The script fetches contact records over a trailing window (yesterday 17:00 to
today 16:59 at the fixed UTC+7 offset), classifies them by lead type, lead
source and lifecycle stage, and renders per-owner and per-source text reports.

Conventions used throughout the embedding:
* Python strings are Lean `String`; `str.lower()` is modelled by mapping
  `Char.toLower` over the characters (`pyLower`), which is what CPython does
  for the ASCII data this job handles.
* A possibly-missing contact property (`d.get(k)`) is an `Option String`;
  Python truthiness of such a value (`if x:`) is `pyTruthy`.
* `time.sleep` and `requests.post` are modelled by an explicit event trace
  (`Event`); the network is a scripted function from page and attempt index
  to an `HttpResponse`.
* Epoch instants are integers counting microseconds (the resolution of
  `datetime`); `int(x)` on a nonnegative float truncates, i.e. `Int.tdiv`.
-/

/-- Python `str.lower()`: lower-case every character. -/
def pyLower (s : String) : String := ⟨s.data.map Char.toLower⟩

/-- Python truthiness of an optional string: `None` and `""` are falsy. -/
def pyTruthy : Option String → Bool
  | none => false
  | some s => !s.isEmpty

/-- Python `x or ""` on an optional string. -/
def pyOrEmpty (x : Option String) : String :=
  match x with
  | none => ""
  | some s => s

/-- Python substring test `needle in hay` on character lists. -/
def charsContain (needle : List Char) : List Char → Bool
  | [] => needle.isEmpty
  | c :: t => needle.isPrefixOf (c :: t) || charsContain needle t

/-- Python substring test `needle in hay` on strings. -/
def pyInStr (needle hay : String) : Bool := charsContain needle.data hay.data

/--
A contact record as consulted by the script: the four properties read from
`contact["properties"]`, each possibly absent.
-/
structure Contact where
  lead_type : Option String
  lead_source : Option String
  hubspot_owner_id : Option String
  secondary_owner : Option String
deriving DecidableEq, Repr

/-! ## Time window (source lines 17-25)

The script computes
  now = datetime.now(tz gmt+7); yesterday = now - timedelta(days=1)
  start_time = yesterday.replace(hour=17, minute=0, second=0, microsecond=0)
  end_time = now.replace(hour=16, minute=59, second=59, microsecond=999999)
  start_timestamp = int(start_time.timestamp() * 1000)   (same for end)
An aware datetime at a fixed offset is, up to representation, a wall-clock
instant; we carry the local wall clock in microseconds.  `replace` keeps the
calendar day (floor-division by a day) and substitutes the time of day;
subtraction of `timedelta(days=1)` shifts the wall clock by one day.
-/

def usPerDay : Int := 86400000000

def usPerHour : Int := 3600000000

/-- The fixed UTC+7 offset of `tz_gmt7`, in microseconds. -/
def gmt7_us : Int := 7 * usPerHour

/-- Local wall clock (microseconds) at UTC+7 of an epoch instant. -/
def localClock (epoch_us : Int) : Int := epoch_us + gmt7_us

/-- Epoch instant (microseconds) of a UTC+7 wall-clock value. -/
def epochOfClock (l : Int) : Int := l - gmt7_us

/-- `datetime.replace` on the time-of-day fields of a wall-clock value. -/
def replaceTime (l h m s us : Int) : Int :=
  (l / usPerDay) * usPerDay + ((h * 60 + m) * 60 + s) * 1000000 + us

/-- `yesterday.replace(hour=17, minute=0, second=0, microsecond=0)`, as a
UTC+7 wall-clock value, from the current epoch instant in microseconds. -/
def start_time (now_us : Int) : Int :=
  replaceTime (localClock now_us - usPerDay) 17 0 0 0

/-- `now.replace(hour=16, minute=59, second=59, microsecond=999999)`. -/
def end_time (now_us : Int) : Int :=
  replaceTime (localClock now_us) 16 59 59 999999

/-- `int(start_time.timestamp() * 1000)`: epoch milliseconds, truncated. -/
def start_timestamp (now_us : Int) : Int :=
  Int.tdiv (epochOfClock (start_time now_us)) 1000

/-- `int(end_time.timestamp() * 1000)`: epoch milliseconds, truncated. -/
def end_timestamp (now_us : Int) : Int :=
  Int.tdiv (epochOfClock (end_time now_us)) 1000

/-- The calendar day index (days since the epoch) of the current instant, on
the UTC+7 wall clock. -/
def localCalendarDay (now_us : Int) : Int := localClock now_us / usPerDay

/-- Spec-side reading: the epoch-millisecond value of the instant
`day`, `h`:`m`:`s`.`ms` on the UTC+7 wall clock (day counted from the epoch). -/
def epochMsAtGmt7 (day h m s ms : Int) : Int :=
  (((day * 24 + h) * 60 + m) * 60 + s) * 1000 + ms - 7 * 3600 * 1000

theorem tdiv_thousand_eq (x q r : Int) (hx : x = q * 1000 + r) (h0 : 0 ≤ r)
    (h1 : r < 1000) (hq : 0 ≤ q) : Int.tdiv x 1000 = q := by
  have hx0 : 0 ≤ x := by omega
  rw [Int.tdiv_eq_ediv hx0 (by norm_num)]
  omega

theorem tdiv_thousand_exact (x q : Int) (hx : x = q * 1000) : Int.tdiv x 1000 = q := by
  subst hx
  exact Int.mul_tdiv_cancel q (by norm_num)

/-- C4: for every current instant (after the epoch), the computed window start
is exactly 17:00:00.000 of the previous UTC+7 calendar day and the computed
end is exactly 16:59:59.999 of the current UTC+7 calendar day, in epoch
milliseconds. -/
theorem window_boundaries (now_us : Int) (hnow : 0 ≤ now_us) :
    start_timestamp now_us = epochMsAtGmt7 (localCalendarDay now_us - 1) 17 0 0 0 ∧
    end_timestamp now_us = epochMsAtGmt7 (localCalendarDay now_us) 16 59 59 999 := by
  have hD : 0 ≤ localCalendarDay now_us := by
    simp only [localCalendarDay, localClock, gmt7_us, usPerHour, usPerDay]
    positivity
  simp only [localCalendarDay, localClock, gmt7_us, usPerHour, usPerDay] at hD
  constructor
  · simp only [start_timestamp, start_time, replaceTime, epochOfClock, localClock,
      epochMsAtGmt7, localCalendarDay, gmt7_us, usPerHour, usPerDay]
    apply tdiv_thousand_exact
    omega
  · simp only [end_timestamp, end_time, replaceTime, epochOfClock, localClock,
      epochMsAtGmt7, localCalendarDay, gmt7_us, usPerHour, usPerDay]
    apply tdiv_thousand_eq _ _ 999 <;> omega

/-- Witness for C4 at a concrete instant: 2026-10-12 09:30:00 UTC+7, which is
epoch instant 1760236200000000 microseconds (local day index 20738). -/
theorem window_boundaries_witness :
    start_timestamp 1760236200000000 = epochMsAtGmt7 (localCalendarDay 1760236200000000 - 1) 17 0 0 0 ∧
    end_timestamp 1760236200000000 = epochMsAtGmt7 (localCalendarDay 1760236200000000) 16 59 59 999 :=
  window_boundaries 1760236200000000 (by norm_num)

/-! ## Paginated fetch client (source lines 29-66)

`fetch_all_hubspot_contacts(filters, properties=None, limit=100, retries=3)`
loops over pages; for each page it attempts the POST up to `retries` times
(`time.sleep(0.2)` before each attempt, `time.sleep((attempt + 1) * 0.5)`
after a 429, an exception on any other non-200 status, and a retry-exhausted
exception when the for-loop finishes without a break).  The network is a
scripted function `server page attempt`; sleeps and requests are recorded in
an event trace.
-/

/-- One filter condition of the request body; values are timestamps or
strings in the source. -/
inductive FilterValue where
  | int (n : Int)
  | str (s : String)
deriving DecidableEq, Repr

structure FilterCond where
  propertyName : String
  operator : String
  value : FilterValue
  highValue : Option FilterValue
deriving DecidableEq, Repr

/-- `between_filter(property_name)`: one BETWEEN condition over the window. -/
def between_filter (property_name : String) (start_ts end_ts : Int) : List FilterCond :=
  [⟨property_name, "BETWEEN", FilterValue.int start_ts, some (FilterValue.int end_ts)⟩]

/-- `eq_filter(property_name, value)`: one EQ condition. -/
def eq_filter (property_name : String) (value : String) : List FilterCond :=
  [⟨property_name, "EQ", FilterValue.str value, none⟩]

/-- The JSON body of one search request: a single filter group, the requested
properties, the page size, and the pagination cursor when present. -/
structure Payload where
  filters : List FilterCond
  properties : List String
  limit : Nat
  after : Option String
deriving DecidableEq, Repr

/-- A response as consumed by the script: the status code, the body text
(used in the error message), and the parsed JSON fields
`results` (default `[]`) and `paging.next.after` (absent -> `none`). -/
structure HttpResponse where
  status : Nat
  text : String
  results : List Contact
  next : Option String
deriving DecidableEq, Repr

/-- Observable side effects of the fetch loop. -/
inductive Event where
  | sleep (seconds : ℚ)
  | request (payload : Payload)
deriving DecidableEq, Repr

/-- The two exceptions raised by `fetch_all_hubspot_contacts`. -/
inductive FetchError where
  | apiError (status : Nat) (body : String)
  | retryExhausted
deriving DecidableEq, Repr

instance exceptDecEq {ε α : Type} [DecidableEq ε] [DecidableEq α] :
    DecidableEq (Except ε α) := fun a b =>
  match a, b with
  | Except.ok x, Except.ok y =>
    if h : x = y then isTrue (by rw [h]) else isFalse (fun hc => h (Except.ok.inj hc))
  | Except.error x, Except.error y =>
    if h : x = y then isTrue (by rw [h]) else isFalse (fun hc => h (Except.error.inj hc))
  | Except.ok _, Except.error _ => isFalse (fun hc => Except.noConfusion hc)
  | Except.error _, Except.ok _ => isFalse (fun hc => Except.noConfusion hc)

/-- Builds the request payload of one page: `properties or ["email"]`
(a `None` or empty list falls back to the default) and `after` only when the
cursor is truthy. -/
def mkPayload (filters : List FilterCond) (properties : Option (List String))
    (limit : Nat) (after : Option String) : Payload :=
  { filters := filters
    properties := match properties with
      | none => ["email"]
      | some [] => ["email"]
      | some ps => ps
    limit := limit
    after := if pyTruthy after then after else none }

/-- The retry loop of one page, over the list of remaining attempt indices
(`for attempt in range(retries)` with a `for ... else` clause):
sleep 0.2 then request; 200 breaks with the response, 429 sleeps
`(attempt + 1) * 0.5` and continues, any other status raises, and an
exhausted loop raises the retry-limit exception. -/
def attemptLoop (respond : Nat → HttpResponse) (payload : Payload) :
    List Nat → List Event × Except FetchError HttpResponse
  | [] => ([], Except.error FetchError.retryExhausted)
  | attempt :: rest =>
    let r := respond attempt
    if r.status = 200 then
      ([Event.sleep 0.2, Event.request payload], Except.ok r)
    else if r.status = 429 then
      let out := attemptLoop respond payload rest
      (Event.sleep 0.2 :: Event.request payload ::
        Event.sleep (((attempt : ℚ) + 1) * 0.5) :: out.1, out.2)
    else
      ([Event.sleep 0.2, Event.request payload],
        Except.error (FetchError.apiError r.status r.text))

/-- The page loop (`while True`) of `fetch_all_hubspot_contacts`, with an
explicit page counter and fuel bounding the number of pages (`none` means the
fuel ran out before the cursor chain ended).  Accumulates `results`, follows
`paging.next.after`, and stops when the cursor is absent or empty. -/
def fetchPages (server : Nat → Nat → HttpResponse) (filters : List FilterCond)
    (properties : Option (List String)) (limit retries : Nat) :
    Nat → Nat → Option String → List Contact →
      Option (List Event × Except FetchError (List Contact))
  | 0, _, _, _ => none
  | fuel + 1, page, after, acc =>
    let payload := mkPayload filters properties limit after
    match attemptLoop (server page) payload (List.range retries) with
    | (tr, Except.error e) => some (tr, Except.error e)
    | (tr, Except.ok r) =>
      let acc2 := acc ++ r.results
      if pyTruthy r.next then
        match fetchPages server filters properties limit retries fuel (page + 1) r.next acc2 with
        | none => none
        | some (tr2, out) => some (tr ++ tr2, out)
      else some (tr, Except.ok acc2)

/-- `fetch_all_hubspot_contacts(filters, properties, limit, retries)` run
against a scripted server, with enough fuel for `fuel` pages. -/
def fetch_all_hubspot_contacts (server : Nat → Nat → HttpResponse)
    (filters : List FilterCond) (properties : Option (List String))
    (limit retries fuel : Nat) :
    Option (List Event × Except FetchError (List Contact)) :=
  fetchPages server filters properties limit retries fuel 0 none []

/-- The trace of one whole 429 attempt: courtesy delay, request, backoff. -/
def attempt429Trace (payload : Payload) (attempt : Nat) : List Event :=
  [Event.sleep 0.2, Event.request payload, Event.sleep (((attempt : ℚ) + 1) * 0.5)]

theorem attemptLoop_all_429 (respond : Nat → HttpResponse) (payload : Payload)
    (l : List Nat) (h : ∀ a ∈ l, (respond a).status = 429) :
    attemptLoop respond payload l =
      (l.flatMap (attempt429Trace payload), Except.error FetchError.retryExhausted) := by
  induction l with
  | nil => rfl
  | cons a rest ih =>
    have ha : (respond a).status = 429 := h a (List.mem_cons_self a rest)
    have hrest : ∀ b ∈ rest, (respond b).status = 429 :=
      fun b hb => h b (List.mem_cons_of_mem a hb)
    simp only [attemptLoop, ha, ih hrest, List.flatMap_cons, attempt429Trace]
    norm_num

/-- Number of HTTP requests recorded in a trace. -/
def requestCount (tr : List Event) : Nat :=
  tr.countP fun e => match e with | Event.request _ => true | _ => false

theorem requestCount_flatMap_attempt429 (payload : Payload) (l : List Nat) :
    requestCount (l.flatMap (attempt429Trace payload)) = l.length := by
  induction l with
  | nil => rfl
  | cons a rest ih =>
    simp only [List.flatMap_cons, requestCount, List.countP_append] at *
    simp [attempt429Trace, List.countP_cons, ih]
    omega

/-- C1: a page request answered only with HTTP 429 makes exactly `retries`
attempts, each preceded by the fixed 0.2 s delay and followed by a backoff
sleep of `(attempt + 1) * 0.5` seconds, the backoffs strictly increasing, and
the whole fetch then fails with the retry-exhausted error. -/
theorem fetch_retry_exhausted (server : Nat → Nat → HttpResponse)
    (filters : List FilterCond) (properties : Option (List String))
    (limit retries fuel page : Nat) (after : Option String) (acc : List Contact)
    (h429 : ∀ a, (server page a).status = 429) :
    fetchPages server filters properties limit retries (fuel + 1) page after acc =
      some ((List.range retries).flatMap
          (attempt429Trace (mkPayload filters properties limit after)),
        Except.error FetchError.retryExhausted) ∧
    requestCount ((List.range retries).flatMap
        (attempt429Trace (mkPayload filters properties limit after))) = retries ∧
    ((List.range retries).map (fun a : ℕ => ((a : ℚ) + 1) * 0.5)).Pairwise (· < ·) := by
  refine ⟨?_, ?_, ?_⟩
  · simp only [fetchPages]
    rw [attemptLoop_all_429 (server page) _ _ (fun a _ => h429 a)]
  · rw [requestCount_flatMap_attempt429, List.length_range]
  · refine List.Pairwise.map _ ?_ (List.pairwise_lt_range retries)
    intro a b hab
    have h2 : (a : ℚ) < (b : ℚ) := by exact_mod_cast hab
    linarith

/-- A server that always answers 429. -/
def srv429 : Nat → Nat → HttpResponse := fun _ _ =>
  { status := 429, text := "rate limited", results := [], next := none }

/-- Witness for C1: with the default `retries = 3` against an all-429 server,
the fetch performs exactly three attempts with backoffs 0.5, 1.0, 1.5 and
fails with retry-exhausted. -/
theorem fetch_retry_exhausted_witness :
    fetchPages srv429 [] none 100 3 1 0 none [] =
      some ([Event.sleep 0.2, Event.request (mkPayload [] none 100 none), Event.sleep 0.5,
             Event.sleep 0.2, Event.request (mkPayload [] none 100 none), Event.sleep 1,
             Event.sleep 0.2, Event.request (mkPayload [] none 100 none), Event.sleep 1.5],
        Except.error FetchError.retryExhausted) := by
  have h := fetch_retry_exhausted srv429 [] none 100 3 0 0 none [] (fun a => rfl)
  refine h.1.trans ?_
  norm_num [show List.range 3 = [0, 1, 2] from rfl, attempt429Trace]

theorem attemptLoop_api_error (respond : Nat → HttpResponse) (payload : Payload)
    (l1 l2 : List Nat) (k : Nat)
    (h1 : ∀ a ∈ l1, (respond a).status = 429)
    (h200 : (respond k).status ≠ 200) (h429 : (respond k).status ≠ 429) :
    attemptLoop respond payload (l1 ++ k :: l2) =
      (l1.flatMap (attempt429Trace payload) ++ [Event.sleep 0.2, Event.request payload],
        Except.error (FetchError.apiError (respond k).status (respond k).text)) := by
  induction l1 with
  | nil => simp [attemptLoop, h200, h429]
  | cons a rest ih =>
    have ha : (respond a).status = 429 := h1 a (List.mem_cons_self a rest)
    have hrest : ∀ b ∈ rest, (respond b).status = 429 :=
      fun b hb => h1 b (List.mem_cons_of_mem a hb)
    have step : attemptLoop respond payload (a :: (rest ++ k :: l2)) =
        (Event.sleep 0.2 :: Event.request payload ::
            Event.sleep (((a : ℚ) + 1) * 0.5) ::
            (attemptLoop respond payload (rest ++ k :: l2)).1,
          (attemptLoop respond payload (rest ++ k :: l2)).2) := by
      simp [attemptLoop, ha]
    rw [List.cons_append, step, ih hrest]
    simp [attempt429Trace]

/-- C2: if, on some page, the attempts before index `k` all return 429 and
attempt `k` (still within the retry budget) returns a status other than 200
and 429, the fetch stops at that attempt with the API error carrying the
status code and the response body: no backoff sleep follows the failing
request and no further attempt or page is made. -/
theorem fetch_api_error (server : Nat → Nat → HttpResponse)
    (filters : List FilterCond) (properties : Option (List String))
    (limit retries fuel page : Nat) (after : Option String) (acc : List Contact)
    (k m : Nat)
    (hbefore : ∀ a, a < k → (server page a).status = 429)
    (h200 : (server page k).status ≠ 200) (h429 : (server page k).status ≠ 429)
    (hk : retries = k + (m + 1)) :
    fetchPages server filters properties limit retries (fuel + 1) page after acc =
      some ((List.range k).flatMap
            (attempt429Trace (mkPayload filters properties limit after)) ++
          [Event.sleep 0.2, Event.request (mkPayload filters properties limit after)],
        Except.error (FetchError.apiError (server page k).status (server page k).text)) := by
  subst hk
  have hsplit : List.range (k + (m + 1)) =
      List.range k ++ k :: ((List.range m).map fun x => k + Nat.succ x) := by
    rw [List.range_add, List.range_succ_eq_map]
    simp
  simp only [fetchPages, hsplit]
  rw [attemptLoop_api_error (server page) _ _ _ k
    (fun a ha => hbefore a (List.mem_range.mp ha)) h200 h429]

/-- A server that answers 404 immediately. -/
def srv404 : Nat → Nat → HttpResponse := fun _ _ =>
  { status := 404, text := "not found", results := [], next := none }

/-- Witness for C2: a first-attempt 404 aborts the fetch at once with the
API error carrying status 404 and the body. -/
theorem fetch_api_error_witness :
    fetchPages srv404 [] none 100 3 1 0 none [] =
      some ([Event.sleep 0.2, Event.request (mkPayload [] none 100 none)],
        Except.error (FetchError.apiError 404 "not found")) := by
  exact fetch_api_error srv404 [] none 100 3 0 0 none [] 0 2
    (fun a ha => absurd ha (by omega)) (by decide) (by decide) rfl

theorem attemptLoop_first_200 (respond : Nat → HttpResponse) (payload : Payload)
    (r : Nat) (h : (respond 0).status = 200) :
    attemptLoop respond payload (List.range (r + 1)) =
      ([Event.sleep 0.2, Event.request payload], Except.ok (respond 0)) := by
  rw [List.range_succ_eq_map]
  simp [attemptLoop, h]

/-- The cursor that page `j` of the loop (counting from the state where the
loop is about to fetch `page` with cursor `after`) carries in its payload:
the incoming cursor on the first page, afterwards the `paging.next.after` of the previous page. -/
def pageCursor (server : Nat → Nat → HttpResponse) (page : Nat)
    (after : Option String) : Nat → Option String
  | 0 => after
  | j + 1 => (server (page + j) 0).next

theorem pageCursor_shift (server : Nat → Nat → HttpResponse) (page : Nat)
    (after : Option String) (j : Nat) :
    pageCursor server (page + 1) ((server page 0).next) j =
      pageCursor server page after (j + 1) := by
  cases j with
  | zero => simp [pageCursor]
  | succ i =>
    show (server (page + 1 + i) 0).next = (server (page + (i + 1)) 0).next
    rw [show page + 1 + i = page + (i + 1) by omega]

theorem range_succ_flatMap {α : Type} (m : Nat) (f : Nat → List α) :
    (List.range (m + 1)).flatMap f = f 0 ++ (List.range m).flatMap (fun j => f (j + 1)) := by
  rw [List.range_succ_eq_map, List.flatMap_cons, List.flatMap_map]

theorem flatMap_congr_mem {α β : Type} (l : List α) (f g : α → List β)
    (h : ∀ a ∈ l, f a = g a) : l.flatMap f = l.flatMap g := by
  induction l with
  | nil => rfl
  | cons x xs ih =>
    rw [List.flatMap_cons, List.flatMap_cons, h x (List.mem_cons_self x xs),
      ih (fun a ha => h a (List.mem_cons_of_mem x ha))]

theorem fetchPages_ok (server : Nat → Nat → HttpResponse) (filters : List FilterCond)
    (properties : Option (List String)) (limit r : Nat) :
    ∀ (n page : Nat) (after : Option String) (acc : List Contact) (fuel : Nat),
      0 < n → n ≤ fuel →
      (∀ j, j < n → (server (page + j) 0).status = 200) →
      (∀ j, j + 1 < n → pyTruthy (server (page + j) 0).next = true) →
      pyTruthy (server (page + (n - 1)) 0).next = false →
      fetchPages server filters properties limit (r + 1) fuel page after acc =
        some ((List.range n).flatMap (fun j =>
            [Event.sleep 0.2,
             Event.request (mkPayload filters properties limit (pageCursor server page after j))]),
          Except.ok (acc ++ (List.range n).flatMap (fun j => (server (page + j) 0).results))) := by
  intro n
  induction n with
  | zero => intro page after acc fuel h0; exact absurd h0 (lt_irrefl 0)
  | succ m ih =>
    intro page after acc fuel h0 hfuel h200 hnext hlast
    obtain ⟨f, rfl⟩ : ∃ f, fuel = f + 1 := ⟨fuel - 1, by omega⟩
    have hs : (server page 0).status = 200 := by
      have := h200 0 (by omega)
      rwa [Nat.add_zero] at this
    simp only [fetchPages]
    rw [attemptLoop_first_200 (server page) _ r hs]
    cases m with
    | zero =>
      have hl : pyTruthy (server page 0).next = false := by
        have := hlast
        rwa [Nat.add_zero] at this
      simp only [hl, Bool.false_eq_true, if_false]
      rw [range_succ_flatMap, range_succ_flatMap]
      simp [pageCursor]
    | succ k =>
      have ht : pyTruthy (server page 0).next = true := by
        have := hnext 0 (by omega)
        rwa [Nat.add_zero] at this
      simp only [ht, if_true]
      rw [ih (page + 1) ((server page 0).next)
        (acc ++ (server page 0).results) f (by omega) (by omega)
        (fun j hj => by
          have := h200 (j + 1) (by omega)
          rwa [show page + (j + 1) = page + 1 + j by omega] at this)
        (fun j hj => by
          have := hnext (j + 1) (by omega)
          rwa [show page + (j + 1) = page + 1 + j by omega] at this)
        (by
          have := hlast
          rwa [show page + (k + 1 + 1 - 1) = page + 1 + (k + 1 - 1) by omega] at this)]
      rw [range_succ_flatMap (k + 1), range_succ_flatMap (k + 1)
        (fun j => (server (page + j) 0).results)]
      have e1 : (List.range (k + 1)).flatMap
            (fun j => [Event.sleep 0.2, Event.request
              (mkPayload filters properties limit
                (pageCursor server (page + 1) ((server page 0).next) j))])
          = (List.range (k + 1)).flatMap
            (fun j => [Event.sleep 0.2, Event.request
              (mkPayload filters properties limit (pageCursor server page after (j + 1)))]) :=
        flatMap_congr_mem _ _ _
          (fun j _ => by rw [pageCursor_shift server page after j])
      have e2 : (List.range (k + 1)).flatMap
            (fun j => (server (page + 1 + j) 0).results)
          = (List.range (k + 1)).flatMap
            (fun j => (server (page + (j + 1)) 0).results) :=
        flatMap_congr_mem _ _ _
          (fun j _ => by rw [show page + 1 + j = page + (j + 1) by omega])
      rw [e1, e2]
      simp [pageCursor, List.append_assoc]

/-- C3: for a cursor-coherent sequence of `n` successful pages (every request
answered 200 at the first attempt, every page before the last carrying a
truthy `paging.next.after`, the last one not), the fetch returns exactly the
concatenation of the `results` lists of the pages in cursor order, issues exactly one
request per page, sends no cursor on the first page, and on every later page
sends exactly the (non-absent) cursor of the previous response; it terminates
exactly at the first absent or empty cursor. -/
theorem fetch_all_pagination (server : Nat → Nat → HttpResponse)
    (filters : List FilterCond) (properties : Option (List String))
    (limit r fuel n : Nat) (hn : 0 < n) (hfuel : n ≤ fuel)
    (h200 : ∀ j, j < n → (server j 0).status = 200)
    (hnext : ∀ j, j + 1 < n → pyTruthy (server j 0).next = true)
    (hlast : pyTruthy (server (n - 1) 0).next = false) :
    fetch_all_hubspot_contacts server filters properties limit (r + 1) fuel =
      some ((List.range n).flatMap (fun j =>
          [Event.sleep 0.2,
           Event.request (mkPayload filters properties limit (pageCursor server 0 none j))]),
        Except.ok ((List.range n).flatMap (fun j => (server j 0).results))) ∧
    (mkPayload filters properties limit (pageCursor server 0 none 0)).after = none ∧
    (∀ j, 0 < j → j < n →
      pageCursor server 0 none j = (server (j - 1) 0).next ∧
      (mkPayload filters properties limit (pageCursor server 0 none j)).after =
        (server (j - 1) 0).next ∧
      (server (j - 1) 0).next ≠ none) := by
  refine ⟨?_, ?_, ?_⟩
  · have h := fetchPages_ok server filters properties limit r n 0 none [] fuel hn hfuel
      (fun j hj => by simpa using h200 j hj)
      (fun j hj => by simpa using hnext j hj)
      (by simpa using hlast)
    simpa [fetch_all_hubspot_contacts] using h
  · simp [mkPayload, pageCursor, pyTruthy]
  · intro j hj0 hjn
    obtain ⟨i, rfl⟩ : ∃ i, j = i + 1 := ⟨j - 1, by omega⟩
    have hcur : pageCursor server 0 none (i + 1) = (server i 0).next := by
      show (server (0 + i) 0).next = (server i 0).next
      rw [Nat.zero_add]
    have htr : pyTruthy (server i 0).next = true := hnext i (by omega)
    have hnn : (server i 0).next ≠ none := by
      intro hc
      rw [hc] at htr
      exact Bool.false_ne_true htr
    refine ⟨by simpa using hcur, ?_, by simpa using hnn⟩
    simp only [Nat.add_sub_cancel]
    rw [hcur]
    simp [mkPayload, htr]

/-- Concrete contacts used by the pagination witness. -/
def cW1 : Contact :=
  { lead_type := some "New Lead", lead_source := some "Facebook Ads",
    hubspot_owner_id := some "101", secondary_owner := none }

def cW2 : Contact :=
  { lead_type := some "Duplicate", lead_source := some "Google",
    hubspot_owner_id := none, secondary_owner := some "202" }

def cW3 : Contact :=
  { lead_type := none, lead_source := none,
    hubspot_owner_id := some "303", secondary_owner := none }

/-- A two-page scripted server: page 0 returns two contacts and the cursor
`"p2"`, page 1 returns one contact and no cursor. -/
def srvPaged : Nat → Nat → HttpResponse := fun page _ =>
  if page = 0 then { status := 200, text := "", results := [cW1, cW2], next := some "p2" }
  else { status := 200, text := "", results := [cW3], next := none }

/-- Witness for C3: against the two-page server the fetch issues exactly two
requests (no cursor, then cursor `"p2"`) and returns the three contacts in
page order. -/
theorem fetch_all_pagination_witness :
    fetch_all_hubspot_contacts srvPaged [] none 100 3 2 =
      some ([Event.sleep 0.2, Event.request (mkPayload [] none 100 none),
             Event.sleep 0.2, Event.request (mkPayload [] none 100 (some "p2"))],
        Except.ok [cW1, cW2, cW3]) := by
  have h := fetch_all_pagination srvPaged [] none 100 2 2 2 (by omega) (le_refl 2)
    (fun j hj => by
      match j, hj with
      | 0, _ => rfl
      | 1, _ => rfl)
    (fun j hj => by
      match j, hj with
      | 0, _ => decide)
    (by decide)
  exact h.1

/-! ## Categorisation helpers (source lines 101-108) -/

/-- `filter_by_type(leads, lead_type)`: exact equality of the `lead_type`
property (a missing property compares unequal to any string). -/
def filter_by_type (leads : List Contact) (lead_type : String) : List Contact :=
  leads.filter (fun l => l.lead_type = some lead_type)

/-- `match_lead_source(leads, keyword)`:
`keyword.lower() in (l.get(..).get("lead_source") or "").lower()`. -/
def match_lead_source (leads : List Contact) (keyword : String) : List Contact :=
  leads.filter (fun l => pyInStr (pyLower keyword) (pyLower (pyOrEmpty l.lead_source)))

/-- `match_blank_lead_source(leads)`: `lead_source` missing or empty. -/
def match_blank_lead_source (leads : List Contact) : List Contact :=
  leads.filter (fun l => !pyTruthy l.lead_source)

theorem charsContain_iff (n : List Char) (h : List Char) :
    charsContain n h = true ↔ ∃ s t, h = s ++ n ++ t := by
  induction h with
  | nil =>
    constructor
    · intro hc
      have hn : n = [] := List.isEmpty_iff.mp hc
      exact ⟨[], [], by simp [hn]⟩
    · rintro ⟨s, t, hst⟩
      have h0 : s ++ (n ++ t) = [] := by simpa using hst.symm
      have h1 := List.append_eq_nil.mp h0
      have h2 := List.append_eq_nil.mp h1.2
      show charsContain n [] = true
      simp [charsContain, h2.1]
  | cons c rest ih =>
    simp only [charsContain, Bool.or_eq_true, ih, List.isPrefixOf_iff_prefix]
    constructor
    · rintro (⟨t, ht⟩ | ⟨s, t, rfl⟩)
      · exact ⟨[], t, by simp [← ht]⟩
      · exact ⟨c :: s, t, rfl⟩
    · rintro ⟨s, t, hst⟩
      cases s with
      | nil =>
        left
        exact ⟨t, by simpa using hst.symm⟩
      | cons a s2 =>
        right
        have hst2 : c :: rest = a :: (s2 ++ n ++ t) := by simpa using hst
        have hd := List.head_eq_of_cons_eq hst2
        have tl := List.tail_eq_of_cons_eq hst2
        exact ⟨s2, t, tl⟩

/-- Spec-side reading of Python `needle in hay` on strings: some split of the
haystack surrounds the needle. -/
theorem pyInStr_iff (needle hay : String) :
    pyInStr needle hay = true ↔ ∃ s t : String, hay = s ++ needle ++ t := by
  unfold pyInStr
  rw [charsContain_iff]
  constructor
  · rintro ⟨s, t, hst⟩
    refine ⟨⟨s⟩, ⟨t⟩, String.ext ?_⟩
    simpa [String.data_append] using hst
  · rintro ⟨s, t, rfl⟩
    exact ⟨s.data, t.data, by simp [String.data_append]⟩

theorem pyLower_eq_empty_iff (s : String) : pyLower s = "" ↔ s = "" := by
  constructor
  · intro h
    have hd : s.data.map Char.toLower = [] := congrArg String.data h
    have : s.data = [] := List.map_eq_nil_iff.mp hd
    exact String.ext this
  · rintro rfl
    rfl

theorem pyOrEmpty_of_falsy (x : Option String) (h : pyTruthy x = false) :
    pyOrEmpty x = "" := by
  cases x with
  | none => rfl
  | some s =>
    have : s.isEmpty = true := by
      by_contra hc
      simp [pyTruthy, Bool.not_eq_true] at h
      simp [h] at hc
    rw [String.isEmpty_iff] at this
    simp [pyOrEmpty, this]

/-- C5 counterexample: with the empty keyword, a contact with a missing
`lead_source` IS returned by `match_lead_source` (Python: `"" in ""` holds),
contradicting "a contact whose lead_source is missing or empty is never
returned" as a statement about every keyword. -/
theorem match_lead_source_empty_keyword_cex :
    ({ lead_type := none, lead_source := none, hubspot_owner_id := none,
       secondary_owner := none } : Contact).lead_source = none ∧
    match_lead_source
        [{ lead_type := none, lead_source := none, hubspot_owner_id := none,
           secondary_owner := none }] "" =
      [{ lead_type := none, lead_source := none, hubspot_owner_id := none,
         secondary_owner := none }] :=
  ⟨rfl, rfl⟩

/-- C5 (amended): `match_lead_source` keeps exactly the contacts whose
lower-cased `lead_source` (defaulted to the empty string when missing)
contains the lower-cased keyword as a substring; when the keyword is
non-empty, a contact whose `lead_source` is missing or empty is never
returned.  (For the empty keyword every contact is returned.) -/
theorem match_lead_source_spec (leads : List Contact) (keyword : String) (c : Contact) :
    (c ∈ match_lead_source leads keyword ↔
      c ∈ leads ∧
        ∃ s t : String, pyLower (pyOrEmpty c.lead_source) = s ++ pyLower keyword ++ t) ∧
    (keyword ≠ "" → pyTruthy c.lead_source = false →
      c ∉ match_lead_source leads keyword) := by
  have hmem : c ∈ match_lead_source leads keyword ↔
      c ∈ leads ∧
        ∃ s t : String, pyLower (pyOrEmpty c.lead_source) = s ++ pyLower keyword ++ t := by
    unfold match_lead_source
    rw [List.mem_filter, pyInStr_iff]
  refine ⟨hmem, ?_⟩
  intro hk hfalsy hc
  obtain ⟨-, s, t, hdec⟩ := hmem.mp hc
  rw [pyOrEmpty_of_falsy c.lead_source hfalsy] at hdec
  have h0 : s ++ pyLower keyword ++ t = pyLower "" := hdec.symm
  have hdata : s.data ++ ((pyLower keyword).data ++ t.data) = [] := by
    have h1 := congrArg String.data h0
    simpa [String.data_append, pyLower] using h1
  have h1 := List.append_eq_nil.mp hdata
  have h2 := List.append_eq_nil.mp h1.2
  exact hk (pyLower_eq_empty_iff keyword |>.mp (String.ext h2.1))

/-- Contacts used in categorisation witnesses. -/
def fbContact : Contact :=
  { lead_type := some "New Lead", lead_source := some "Facebook Ads",
    hubspot_owner_id := none, secondary_owner := none }

def gContact : Contact :=
  { lead_type := some "Duplicate", lead_source := some "Google",
    hubspot_owner_id := none, secondary_owner := none }

def blankContact : Contact :=
  { lead_type := none, lead_source := none,
    hubspot_owner_id := none, secondary_owner := none }

/-- Witness for C5: keyword `"face"` matches `"Facebook Ads"`, and a missing
`lead_source` is never matched by the non-empty keyword `"x"`. -/
theorem match_lead_source_spec_witness :
    fbContact ∈ match_lead_source [fbContact, gContact] "face" ∧
    blankContact ∉ match_lead_source [blankContact] "x" := by
  constructor
  · exact (match_lead_source_spec [fbContact, gContact] "face" fbContact).1.mpr
      ⟨by simp, "", "book ads", by decide⟩
  · exact (match_lead_source_spec [blankContact] "x" blankContact).2
      (by decide) rfl

/-! ## Lead-source grouping (source lines 209-222)

`grouped_sources` starts from empty buckets (one per configured canonical
source, plus `"Other"`); for each observed source value the loop appends it
to the bucket of the first canonical name `m` with
`source and m and m.lower() in source.lower()`, and to `"Other"` when no
canonical name matches and the value is truthy.  Buckets are modelled as a
total function from bucket name to contents (absent buckets are empty, which
is also what the rendering reads via `.get(name, [])`). -/

/-- Python truthiness of a string: the empty string is falsy. -/
def pyTruthyStr (s : String) : Bool := !s.isEmpty

/-- The guard of the inner grouping loop:
`source and main_source and main_source.lower() in source.lower()`. -/
def sourceMatches (main_source source : String) : Bool :=
  pyTruthyStr source && pyTruthyStr main_source &&
    pyInStr (pyLower main_source) (pyLower source)

/-- The first canonical name matching `source` (the inner `for`/`break`). -/
def findMain (main_list : List String) (source : String) : Option String :=
  main_list.find? (fun m => sourceMatches m source)

/-- `grouped_sources[k].append(v)` on function-modelled buckets. -/
def bucketAppend (g : String → List String) (k v : String) : String → List String :=
  fun x => if x = k then g k ++ [v] else g x

/-- One iteration of the outer grouping loop for the value `source`. -/
def groupStep (main_list : List String) (g : String → List String)
    (source : String) : String → List String :=
  match findMain main_list source with
  | some m => bucketAppend g m source
  | none => if pyTruthyStr source then bucketAppend g "Other" source else g

/-- The grouping of all observed lead-source values. -/
def grouped_sources (main_list observed : List String) : String → List String :=
  observed.foldl (groupStep main_list) (fun _ => [])

/-- The single bucket the loop sends a truthy `source` to: the first
non-empty canonical name whose lower-cased text occurs in the lower-cased
source, else `"Other"`; a falsy source goes nowhere. -/
def codeBucket (main_list : List String) (source : String) : Option String :=
  if pyTruthyStr source then
    match main_list.find? (fun m => pyTruthyStr m && pyInStr (pyLower m) (pyLower source)) with
    | some m => some m
    | none => some "Other"
  else none

theorem find?_congr {α : Type} (l : List α) (p q : α → Bool)
    (h : ∀ a ∈ l, p a = q a) : l.find? p = l.find? q := by
  induction l with
  | nil => rfl
  | cons a rest ih =>
    rw [List.find?_cons, List.find?_cons, h a (List.mem_cons_self a rest),
      ih (fun b hb => h b (List.mem_cons_of_mem a hb))]

theorem groupStep_apply (main_list : List String) (g : String → List String)
    (s b : String) :
    groupStep main_list g s b =
      if codeBucket main_list s = some b then g b ++ [s] else g b := by
  unfold groupStep codeBucket
  cases hts : pyTruthyStr s with
  | false =>
    have hf : findMain main_list s = none := by
      unfold findMain
      apply List.find?_eq_none.mpr
      intro m _
      simp [sourceMatches, hts]
    rw [hf]
    simp [hts]
  | true =>
    have hcong : findMain main_list s =
        main_list.find? (fun m => pyTruthyStr m && pyInStr (pyLower m) (pyLower s)) := by
      unfold findMain
      apply find?_congr
      intro m _
      simp [sourceMatches, hts]
    rw [hcong]
    cases hf : main_list.find? (fun m => pyTruthyStr m && pyInStr (pyLower m) (pyLower s)) with
    | some m =>
      simp only [hts, if_true, bucketAppend]
      by_cases hbm : b = m
      · subst hbm
        simp
      · rw [if_neg hbm, if_neg (fun hc => hbm (Option.some.inj hc).symm)]
    | none =>
      simp only [hts, if_true, bucketAppend]
      by_cases hbo : b = "Other"
      · subst hbo
        simp
      · rw [if_neg hbo, if_neg (fun hc => hbo (Option.some.inj hc).symm)]

theorem groupFold_eq (main_list : List String) (observed : List String)
    (g : String → List String) (b : String) :
    observed.foldl (groupStep main_list) g b =
      g b ++ observed.filter (fun s => decide (codeBucket main_list s = some b)) := by
  induction observed generalizing g with
  | nil => simp
  | cons s rest ih =>
    rw [List.foldl_cons, ih (groupStep main_list g s), List.filter_cons]
    by_cases hb : codeBucket main_list s = some b
    · rw [groupStep_apply, if_pos hb]
      simp [hb]
    · rw [groupStep_apply, if_neg hb]
      simp [hb]

/-- C6 counterexample: with the configured canonical list `[""]` and the
observed value `"TikTok"`, the empty canonical name IS contained
case-insensitively in the observed value, yet the code files `"TikTok"`
under `"Other"` and leaves the bucket of the first containing canonical name
empty (the guard `if source and main_source and ...` skips empty canonical
names). -/
theorem grouped_sources_empty_canonical_cex :
    pyInStr (pyLower "") (pyLower "TikTok") = true ∧
    grouped_sources [""] ["TikTok"] "" = [] ∧
    grouped_sources [""] ["TikTok"] "Other" = ["TikTok"] :=
  ⟨rfl, rfl, rfl⟩

/-- C6 (amended): every bucket of the grouping holds exactly the observed
values it is responsible for, in observed order: a non-empty observed value
goes to the first NON-EMPTY canonical name in configured order whose
lower-cased text is contained in the lower-cased observed value, or to
`"Other"` when no such canonical name exists; an empty observed value goes
nowhere, and every non-empty observed value is assigned to exactly one
bucket. -/
theorem grouped_sources_spec (main_list observed : List String) (b : String) :
    grouped_sources main_list observed b =
      observed.filter (fun s => decide (codeBucket main_list s = some b)) ∧
    (∀ s ∈ observed, pyTruthyStr s = true →
      ∃ b2 : String, codeBucket main_list s = some b2 ∧
        ∀ b3 : String, codeBucket main_list s = some b3 → b3 = b2) := by
  constructor
  · unfold grouped_sources
    rw [groupFold_eq]
    simp
  · intro s _ hts
    unfold codeBucket
    rw [if_pos hts]
    cases main_list.find? (fun m => pyTruthyStr m && pyInStr (pyLower m) (pyLower s)) with
    | some m => exact ⟨m, rfl, fun b3 h3 => (Option.some.inj h3).symm⟩
    | none => exact ⟨"Other", rfl, fun b3 h3 => (Option.some.inj h3).symm⟩

/-- Witness for C6 at the configuration from the spec example: canonical
sources `["Facebook", "Google"]` and observed values
`["facebook ads", "Google Search", "TikTok"]` give buckets
`Facebook = ["facebook ads"]`, `Google = ["Google Search"]`,
`Other = ["TikTok"]`. -/
theorem grouped_sources_spec_witness :
    grouped_sources ["Facebook", "Google"]
        ["facebook ads", "Google Search", "TikTok"] "Facebook" = ["facebook ads"] ∧
    grouped_sources ["Facebook", "Google"]
        ["facebook ads", "Google Search", "TikTok"] "Google" = ["Google Search"] ∧
    grouped_sources ["Facebook", "Google"]
        ["facebook ads", "Google Search", "TikTok"] "Other" = ["TikTok"] := by
  refine ⟨?_, ?_, ?_⟩
  · exact ((grouped_sources_spec ["Facebook", "Google"]
      ["facebook ads", "Google Search", "TikTok"] "Facebook").1).trans (by decide)
  · exact ((grouped_sources_spec ["Facebook", "Google"]
      ["facebook ads", "Google Search", "TikTok"] "Google").1).trans (by decide)
  · exact ((grouped_sources_spec ["Facebook", "Google"]
      ["facebook ads", "Google Search", "TikTok"] "Other").1).trans (by decide)

/-! ## Lead-source report rendering (source lines 224-238)

For each canonical source in configured order and then `"Other"`, the loop
takes `sorted(list(set(grouped_sources.get(main_source, []))))`, skips the
bucket when that is empty, and otherwise emits the header
`"<main_source>: <sum of sub-source counts>"`, one line per sub-source, and
a blank line.  The per-sub-source count (`get_count_lead_source`, a remote
count-only fetch) is an oracle parameter `cnt`. -/

/-- `sorted(list(set(xs)))`: the distinct values in ascending order. -/
def sortedDedup (l : List String) : List String :=
  List.insertionSort (fun a b : String => a ≤ b) l.dedup

/-- The inner loop over the sub-sources of one bucket: accumulates the
bucket total and the rendered `"<sub-source>: <count>"` lines. -/
def renderSubLoop (cnt : String → Nat) (subs : List String) : Nat × List String :=
  subs.foldl
    (fun acc s => (acc.1 + cnt s, acc.2 ++ [s ++ ": " ++ toString (cnt s)]))
    (0, [])

/-- The outer loop building `output_lead_source` over
`main_lead_source + ["Other"]`. -/
def output_lead_source (cnt : String → Nat) (grouped : String → List String)
    (main_list : List String) : List String :=
  (main_list ++ ["Other"]).foldl
    (fun out m =>
      let subs := sortedDedup (grouped m)
      if subs = [] then out
      else
        out ++ ((m ++ ": " ++ toString (renderSubLoop cnt subs).1) ::
          (renderSubLoop cnt subs).2 ++ [""]))
    []

/-- Spec-side reading of one rendered bucket: nothing at all when the bucket
has no sub-sources, otherwise a header carrying the sum of the sub-source
counts, one line per sub-source, and a trailing blank line. -/
def renderBucketSpec (cnt : String → Nat) (m : String) (subs : List String) :
    List String :=
  if subs = [] then []
  else (m ++ ": " ++ toString ((subs.map cnt).sum)) ::
    (subs.map (fun s => s ++ ": " ++ toString (cnt s))) ++ [""]

theorem renderSubLoop_eq (cnt : String → Nat) (subs : List String) :
    renderSubLoop cnt subs =
      ((subs.map cnt).sum, subs.map (fun s => s ++ ": " ++ toString (cnt s))) := by
  suffices h : ∀ (a : Nat) (l0 : List String),
      subs.foldl
        (fun acc s => (acc.1 + cnt s, acc.2 ++ [s ++ ": " ++ toString (cnt s)]))
        (a, l0) =
      (a + (subs.map cnt).sum, l0 ++ subs.map (fun s => s ++ ": " ++ toString (cnt s))) by
    simpa [renderSubLoop] using h 0 []
  induction subs with
  | nil => intro a l0; simp
  | cons s rest ih =>
    intro a l0
    rw [List.foldl_cons, ih]
    simp [Nat.add_assoc]

theorem renderFold_eq (cnt : String → Nat) (grouped : String → List String)
    (ms : List String) (init : List String) :
    ms.foldl
      (fun out m =>
        let subs := sortedDedup (grouped m)
        if subs = [] then out
        else
          out ++ ((m ++ ": " ++ toString (renderSubLoop cnt subs).1) ::
            (renderSubLoop cnt subs).2 ++ [""]))
      init =
    init ++ ms.flatMap (fun m => renderBucketSpec cnt m (sortedDedup (grouped m))) := by
  induction ms generalizing init with
  | nil => simp
  | cons m rest ih =>
    rw [List.foldl_cons]
    by_cases h : sortedDedup (grouped m) = []
    · simp only [h, if_pos rfl, List.flatMap_cons, renderBucketSpec, if_pos rfl]
      rw [ih]
      simp [renderBucketSpec, h]
    · simp only [h, if_neg h, List.flatMap_cons]
      rw [ih]
      simp [renderBucketSpec, h, renderSubLoop_eq, List.append_assoc]

/-- C7: the rendered lead-source report is the concatenation, over the
canonical sources in configured order followed by `"Other"`, of the rendered
buckets: a bucket with no sub-sources contributes no lines at all, and a
non-empty bucket contributes the header `"<name>: <sum of its sub-source
counts>"`, one line `"<sub-source>: <count>"` per sub-source, then one blank
line; the sub-source list of every bucket is deduplicated, sorted in
ascending (lexicographic) string order, and holds exactly the values of the
underlying bucket. -/
theorem output_lead_source_spec (cnt : String → Nat)
    (grouped : String → List String) (main_list : List String) :
    output_lead_source cnt grouped main_list =
      (main_list ++ ["Other"]).flatMap
        (fun m => renderBucketSpec cnt m (sortedDedup (grouped m))) ∧
    (∀ l : List String, (sortedDedup l).Nodup ∧
      List.Sorted (fun a b : String => a ≤ b) (sortedDedup l) ∧
      (∀ x, x ∈ sortedDedup l ↔ x ∈ l)) := by
  constructor
  · unfold output_lead_source
    rw [renderFold_eq]
    simp
  · intro l
    refine ⟨?_, ?_, ?_⟩
    · exact ((List.perm_insertionSort _ _).nodup_iff).mpr (List.nodup_dedup l)
    · exact List.sorted_insertionSort _ l.dedup
    · intro x
      exact ((List.perm_insertionSort _ _).mem_iff).trans List.mem_dedup

/-! ## Lead buckets and final counts (source lines 110-122 and 242-251) -/

/-- The five named lead-type buckets, in source order. -/
def lead_types (leads_allocate : List Contact) : List (String × List Contact) :=
  [("new_lead", filter_by_type leads_allocate "New Lead"),
   ("duplicate_lead", filter_by_type leads_allocate "Duplicate"),
   ("resubmitted_lead", filter_by_type leads_allocate "Resubmitted"),
   ("nurture_lead", filter_by_type leads_allocate "Nurture"),
   ("self_gen_lead", filter_by_type leads_allocate "Self Gen")]

/-- The five exact `lead_type` values the buckets select on. -/
def fiveLeadTypeValues : List String :=
  ["New Lead", "Duplicate", "Resubmitted", "Nurture", "Self Gen"]

/-- Insertion into a Python dict modelled as a key-value list: overwriting an
existing key keeps its position, a fresh key is appended. -/
def dictInsert {α : Type} (d : List (String × α)) (k : String) (v : α) :
    List (String × α) :=
  if d.any (fun p => decide (p.1 = k)) then
    d.map (fun p => if p.1 = k then (k, v) else p)
  else d ++ [(k, v)]

/-- The `lead_sources` dict: one bucket per configured source keyed by its
lower-cased name (a later duplicate key overwrites), then the
`no_lead_source` bucket. -/
def lead_sources (main_list : List String) (leads_create : List Contact) :
    List (String × List Contact) :=
  dictInsert
    (main_list.foldl
      (fun d s => dictInsert d (pyLower s) (match_lead_source leads_create s)) [])
    "no_lead_source" (match_blank_lead_source leads_create)

/-- `output["other_lead"]`. -/
def other_lead (leads_allocate : List Contact) : Int :=
  (leads_allocate.length : Int) -
    ((lead_types leads_allocate).map (fun p => (p.2.length : Int))).sum

/-- `output["total_lead_allocate"]`. -/
def total_lead_allocate (leads_allocate : List Contact) : Nat :=
  leads_allocate.length

/-- `output["other_source"]`. -/
def other_source (main_list : List String) (leads_create : List Contact) : Int :=
  (leads_create.length : Int) -
    ((lead_sources main_list leads_create).map (fun p => (p.2.length : Int))).sum

/-- `output["total_lead_create"]`. -/
def total_lead_create (leads_create : List Contact) : Nat :=
  leads_create.length

theorem dictInsert_mem {α : Type} (d : List (String × α)) (k : String) (v : α) :
    (k, v) ∈ dictInsert d k v := by
  unfold dictInsert
  by_cases h : d.any (fun p => decide (p.1 = k)) = true
  · rw [if_pos h]
    rcases List.any_eq_true.mp h with ⟨p, hp, hpk⟩
    have hk : p.1 = k := of_decide_eq_true hpk
    refine List.mem_map.mpr ⟨p, hp, ?_⟩
    rw [if_pos hk]
  · rw [if_neg h]
    exact List.mem_append_right _ (List.mem_singleton.mpr rfl)

/-- A contact matched by two overlapping source keywords, used to exhibit a
negative `other_source`. -/
def abContact : Contact :=
  { lead_type := none, lead_source := some "ab",
    hubspot_owner_id := none, secondary_owner := none }

/-- C8: `other_lead` is the total allocated count minus the sum of the five
named lead-type bucket sizes, and `other_source` is the total created count
minus the sum of all lead-source bucket sizes (the `no_lead_source` bucket
being one of them); the subtraction is carried out over the integers, and
`other_source` is in fact negative when one contact falls into two
overlapping keyword buckets. -/
theorem output_residuals (leads_allocate leads_create : List Contact)
    (main_list : List String) :
    other_lead leads_allocate =
      (total_lead_allocate leads_allocate : Int) -
        (((filter_by_type leads_allocate "New Lead").length : Int) +
         ((filter_by_type leads_allocate "Duplicate").length : Int) +
         ((filter_by_type leads_allocate "Resubmitted").length : Int) +
         ((filter_by_type leads_allocate "Nurture").length : Int) +
         ((filter_by_type leads_allocate "Self Gen").length : Int)) ∧
    other_source main_list leads_create =
      (total_lead_create leads_create : Int) -
        ((lead_sources main_list leads_create).map (fun p => (p.2.length : Int))).sum ∧
    ("no_lead_source", match_blank_lead_source leads_create) ∈
      lead_sources main_list leads_create ∧
    other_source ["a", "b"] [abContact] < 0 := by
  refine ⟨?_, rfl, ?_, ?_⟩
  · unfold other_lead lead_types total_lead_allocate
    simp [List.sum_cons]
    ring
  · exact dictInsert_mem _ _ _
  · decide

theorem decide_mem_cons (x : Option String) (t : String) (rest : List String) :
    decide (x ∈ (t :: rest).map some) =
      (decide (x = some t) || decide (x ∈ rest.map some)) := by
  by_cases h1 : x = some t
  · simp [h1]
  · by_cases h2 : x ∈ rest.map some <;> simp [h1, h2]

theorem length_filter_or {α : Type} (l : List α) (p q : α → Bool)
    (hdisj : ∀ a, p a = true → q a = false) :
    (l.filter (fun a => p a || q a)).length =
      (l.filter p).length + (l.filter q).length := by
  induction l with
  | nil => rfl
  | cons a rest ih =>
    rw [List.filter_cons, List.filter_cons, List.filter_cons]
    by_cases hp : p a = true
    · have hq : q a = false := hdisj a hp
      rw [if_pos (by simp [hp]), if_pos hp, if_neg (by simp [hq])]
      simp only [List.length_cons]
      omega
    · have hp2 : p a = false := by
        cases hpa : p a with
        | false => rfl
        | true => exact absurd hpa hp
      by_cases hq : q a = true
      · rw [if_pos (by simp [hp2, hq]), if_neg (by simp [hp2]), if_pos hq]
        simp only [List.length_cons]
        omega
      · have hq2 : q a = false := by
          cases hqa : q a with
          | false => rfl
          | true => exact absurd hqa hq
        rw [if_neg (by simp [hp2, hq2]), if_neg (by simp [hp2]), if_neg (by simp [hq2])]
        exact ih

theorem sum_bucket_lengths (leads : List Contact) (ts : List String)
    (hnd : ts.Nodup) :
    (ts.map (fun t => (filter_by_type leads t).length)).sum =
      (leads.filter (fun c => decide (c.lead_type ∈ ts.map some))).length := by
  induction ts with
  | nil => simp
  | cons t rest ih =>
    rcases List.nodup_cons.mp hnd with ⟨htr, hnd2⟩
    rw [List.map_cons, List.sum_cons, ih hnd2]
    have hcongr : leads.filter (fun c => decide (c.lead_type ∈ (t :: rest).map some)) =
        leads.filter (fun c =>
          decide (c.lead_type = some t) || decide (c.lead_type ∈ rest.map some)) :=
      List.filter_congr (fun c _ => decide_mem_cons c.lead_type t rest)
    rw [hcongr, length_filter_or]
    · rfl
    intro c hc
    have hct : c.lead_type = some t := of_decide_eq_true hc
    apply decide_eq_false
    intro hmem
    rcases List.mem_map.mp hmem with ⟨a, ha, hsa⟩
    have ha2 : a = t := by
      rw [hct] at hsa
      exact Option.some.inj hsa
    exact htr (ha2 ▸ ha)

theorem length_split_by_type (leads : List Contact) :
    leads.length =
      (leads.filter (fun c => decide (c.lead_type ∈ fiveLeadTypeValues.map some))).length +
      (leads.filter (fun c => decide (c.lead_type ∉ fiveLeadTypeValues.map some))).length := by
  induction leads with
  | nil => rfl
  | cons a rest ih =>
    rw [List.length_cons, List.filter_cons, List.filter_cons]
    by_cases h : a.lead_type ∈ fiveLeadTypeValues.map some
    · rw [if_pos (by simp [h]), if_neg (by simp [h])]
      simp only [List.length_cons]
      omega
    · rw [if_neg (by simp [h]), if_pos (by simp [h])]
      simp only [List.length_cons]
      omega

theorem lead_types_lengths (leads : List Contact) :
    (lead_types leads).map (fun p => p.2.length) =
      fiveLeadTypeValues.map (fun t => (filter_by_type leads t).length) := rfl

/-- C10: the five named lead-type buckets select by exact equality of the
single `lead_type` property against five pairwise distinct values, so they
are pairwise disjoint; consequently `other_lead` equals the number of
allocated contacts whose `lead_type` is none of the five named values, and
in particular is never negative. -/
theorem lead_type_buckets_disjoint (leads_allocate : List Contact)
    (t1 t2 : String) (h12 : t1 ≠ t2) (c : Contact) :
    (c ∈ filter_by_type leads_allocate t1 →
      c ∉ filter_by_type leads_allocate t2) ∧
    other_lead leads_allocate =
      ((leads_allocate.filter
        (fun c2 => decide (c2.lead_type ∉ fiveLeadTypeValues.map some))).length : Int) ∧
    0 ≤ other_lead leads_allocate := by
  have hsum : ((lead_types leads_allocate).map (fun p => (p.2.length : Int))).sum =
      (((leads_allocate.filter
        (fun c2 => decide (c2.lead_type ∈ fiveLeadTypeValues.map some))).length : Int)) := by
    have h1 : (lead_types leads_allocate).map (fun p => (p.2.length : Int)) =
        ((lead_types leads_allocate).map (fun p => p.2.length)).map
          (fun n : Nat => (n : Int)) := by
      rw [List.map_map]
      rfl
    rw [h1, ← Nat.cast_list_sum, lead_types_lengths,
      sum_bucket_lengths leads_allocate fiveLeadTypeValues (by decide)]
  have hsplit := length_split_by_type leads_allocate
  have hmain : other_lead leads_allocate =
      ((leads_allocate.filter
        (fun c2 => decide (c2.lead_type ∉ fiveLeadTypeValues.map some))).length : Int) := by
    unfold other_lead
    rw [hsum]
    omega
  refine ⟨?_, hmain, ?_⟩
  · intro h1 h2
    unfold filter_by_type at h1 h2
    have e1 : c.lead_type = some t1 :=
      of_decide_eq_true (List.mem_filter.mp h1).2
    have e2 : c.lead_type = some t2 :=
      of_decide_eq_true (List.mem_filter.mp h2).2
    exact h12 (Option.some.inj (e1.symm.trans e2))
  · rw [hmain]
    exact Int.natCast_nonneg _

/-- Witness for C10 at a concrete allocation list: the "New Lead" and
"Duplicate" buckets are disjoint at `fbContact`, and `other_lead` of
`[fbContact, gContact]` is the (zero) count of contacts outside the five
named types. -/
theorem lead_type_buckets_disjoint_witness :
    (fbContact ∈ filter_by_type [fbContact, gContact] "New Lead" →
      fbContact ∉ filter_by_type [fbContact, gContact] "Duplicate") ∧
    other_lead [fbContact, gContact] =
      (([fbContact, gContact].filter
        (fun c2 => decide (c2.lead_type ∉ fiveLeadTypeValues.map some))).length : Int) ∧
    0 ≤ other_lead [fbContact, gContact] :=
  lead_type_buckets_disjoint [fbContact, gContact] "New Lead" "Duplicate"
    (by decide) fbContact

/-! ## Per-owner reports (source lines 137-205)

`contact_owners_with_activity` and `secondary_owners_with_activity` are
Python set comprehensions over the lifecycle-stage fetches; the report loops
iterate those sets directly.  The iteration order of a CPython set of strings
is hash-table order (randomised per process), so the embedding takes the
enumeration of the owner set as an oracle list and characterises membership
separately; only properties independent of that unspecified order can be
settled here. -/

/-- Membership in the `contact_owners_with_activity` set comprehension: some
fetched lifecycle-stage contact carries the (truthy) owner id, and the id is
not in the CC team. -/
def contact_owners_with_activity (cc_team : List String)
    (groups : List (List Contact)) (sid : String) : Bool :=
  (groups.any (fun g => g.any (fun c =>
    pyTruthy c.hubspot_owner_id && decide (c.hubspot_owner_id = some sid)))) &&
  !(cc_team.contains sid)

/-- `sales_team.get(sales_id, sales_id)`: display-name lookup that falls back
to the raw identifier. -/
def salesName (sales_team : List (String × String)) (sid : String) : String :=
  match sales_team.find? (fun p => decide (p.1 = sid)) with
  | some p => p.2
  | none => sid

/-- One paragraph of the sales-direct report; `cnt property sales_id` is the
count-only remote fetch `get_count_contact_owner`. -/
def report_sales_direct_paragraph (cnt : String → String → Nat)
    (sales_team : List (String × String)) (sid : String) : String :=
  salesName sales_team sid ++ "\n" ++
  " Zoom Book: " ++
    toString (cnt "date_entered__zoom_booked__new_lifecycle_stage_pipeline__" sid) ++ "\n" ++
  " Attend: " ++
    toString (cnt "date_entered__zoom_attended__new_lifecycle_stage_pipeline__" sid) ++ "\n" ++
  " Deal Negotiation: " ++
    toString (cnt "date_entered__deal_negotiation__new_lifecycle_stage_pipeline__" sid) ++ "\n"

/-- The sales-direct report block, over the owner set enumerated in the
(unspecified) order `ownersEnum`. -/
def output_sales_direct (cnt : String → String → Nat)
    (sales_team : List (String × String)) (ownersEnum : List String) :
    List String :=
  ownersEnum.map (report_sales_direct_paragraph cnt sales_team)

/-- Whatever order the owner set is enumerated in, the report has exactly one
paragraph per enumerated owner, in enumeration order (in particular it is
not reordered by count), and an owner absent from the sales-team mapping
keeps the raw identifier as display name. -/
theorem output_sales_direct_structure (cnt : String → String → Nat)
    (sales_team : List (String × String)) (ownersEnum : List String) :
    (output_sales_direct cnt sales_team ownersEnum).length = ownersEnum.length ∧
    (∀ i (hi : i < ownersEnum.length),
      (output_sales_direct cnt sales_team ownersEnum).get
          ⟨i, by rw [output_sales_direct, List.length_map]; exact hi⟩ =
        report_sales_direct_paragraph cnt sales_team (ownersEnum.get ⟨i, hi⟩)) ∧
    (∀ sid, sales_team.find? (fun p => decide (p.1 = sid)) = none →
      salesName sales_team sid = sid) := by
  refine ⟨List.length_map _ _, ?_, ?_⟩
  · intro i hi
    exact List.getElem_map _
  · intro sid h
    unfold salesName
    rw [h]
